import Mathlib

/-!
# truffleposix: a shallow embedding of `src/main/c/truffleposix/truffleposix.c`

The C file is a thin layer over POSIX primitives.  Each exported function is
embedded as a pure Lean function that takes the operating system's answer as
an explicit argument (an oracle) and threads the C state it touches
(`errno`, the caller's `result` array, the list of primitive calls made).

Conventions
* C `int` / `pid_t` values are `Int`; results of C arithmetic are reduced with
  `wrapInt` (32 bit) or `wrapInt64` (64 bit) two's complement wrap-around.
* An `int*` argument is the memory it points at, a function `Nat → Int` from the
  element index to the stored value.
* Macros and constants that come from system headers (`WIFEXITED`,
  `POSIX_SPAWN_SETPGROUP`, ...) are parameters of the embedding.
-/

namespace TrufflePosix

/-! ## Machine integers -/

/-- Two's complement reduction of a mathematical integer to a C `int` (32 bit). -/
def wrapInt (x : Int) : Int := (x + 2147483648) % 4294967296 - 2147483648

/-- Two's complement reduction of a mathematical integer to a C `int64_t`. -/
def wrapInt64 (x : Int) : Int :=
  (x + 9223372036854775808) % 18446744073709551616 - 9223372036854775808

/-- Two's complement reduction of a mathematical integer to a C `signed char`. -/
def wrapInt8 (x : Int) : Int := (x + 128) % 256 - 128

/-! ## `truffleposix_getpriority` (lines 92-101) -/

/-- The OS primitive `getpriority(which, who)`: given the arguments and the value of
`errno` at the time of the call, it answers with its return value and the value of
`errno` after the call. -/
abbrev GetPriority := Int → Int → Int → Int × Int

/-- Embedding of `truffleposix_getpriority`.  The extra argument `errno` is the value
of `errno` before the call (named `_errno`: the first statement overwrites it); the
result is the returned `int` paired with the value of `errno` afterwards.
```c
errno = 0;
int r = getpriority(which, who);
if (r == -1 && errno != 0) { return -100 - errno; }
return r;
``` -/
def truffleposix_getpriority (getpriority : GetPriority) (which who : Int) (_errno : Int) :
    Int × Int :=
  let errno : Int := 0
  let (r, errno) := getpriority which who errno
  if r = -1 ∧ errno ≠ 0 then
    (wrapInt (-100 - errno), errno)
  else
    (r, errno)

/-! ## `truffleposix_waitpid` (lines 103-123) -/

/-- The wait-status macros of `<sys/wait.h>`.  The header is not part of the
repository, so the decoder takes the macros as a parameter. -/
structure WaitMacros where
  WIFEXITED : Int → Bool
  WEXITSTATUS : Int → Int
  WIFSIGNALED : Int → Bool
  WTERMSIG : Int → Int
  WIFSTOPPED : Int → Bool
  WSTOPSIG : Int → Int

/-- The OS primitive `waitpid(pid, &status, options)`: given `pid`, the value stored in
`status` before the call and `options`, it answers with the returned pid and the value
of `status` after the call. -/
abbrev WaitPid := Int → Int → Int → Int × Int

/-- Embedding of `truffleposix_waitpid`.  `result` is the memory behind the caller's
`int result[3]`; the function returns the pid together with that memory after the
call.
```c
int status = 0;
pid_t r = waitpid(pid, &status, options);
if (r <= 0) { return r; }
int exitcode = -1000, termsig = -1000, stopsig = -1000;
if (WIFEXITED(status)) { exitcode = WEXITSTATUS(status); }
else if (WIFSIGNALED(status)) { termsig = WTERMSIG(status); }
else if (WIFSTOPPED(status)) { stopsig = WSTOPSIG(status); }
result[0] = exitcode; result[1] = termsig; result[2] = stopsig;
return r;
``` -/
def truffleposix_waitpid (m : WaitMacros) (waitpid : WaitPid) (pid options : Int)
    (result : Nat → Int) : Int × (Nat → Int) :=
  let status : Int := 0
  let (r, status) := waitpid pid status options
  if r ≤ 0 then
    (r, result)
  else
    let exitcode : Int := -1000
    let termsig : Int := -1000
    let stopsig : Int := -1000
    let (exitcode, termsig, stopsig) :=
      if m.WIFEXITED status then
        (m.WEXITSTATUS status, termsig, stopsig)
      else if m.WIFSIGNALED status then
        (exitcode, m.WTERMSIG status, stopsig)
      else if m.WIFSTOPPED status then
        (exitcode, termsig, m.WSTOPSIG status)
      else
        (exitcode, termsig, stopsig)
    let result := Function.update result 0 exitcode
    let result := Function.update result 1 termsig
    let result := Function.update result 2 stopsig
    (r, result)

/-- The Linux definitions of the wait-status macros (glibc, `bits/waitstatus.h`), with
the bit operations written arithmetically: `status & 0x7f` is `status % 128`,
`(status & 0xff00) >> 8` is `status / 256 % 256`, and `>> 1` on a `signed char` is the
floor division by two.
```c
#define __WEXITSTATUS(status) (((status) & 0xff00) >> 8)
#define __WTERMSIG(status)    ((status) & 0x7f)
#define __WSTOPSIG(status)    __WEXITSTATUS(status)
#define __WIFEXITED(status)   (__WTERMSIG(status) == 0)
#define __WIFSIGNALED(status) (((signed char) (((status) & 0x7f) + 1) >> 1) > 0)
#define __WIFSTOPPED(status)  (((status) & 0xff) == 0x7f)
``` -/
def linuxWaitMacros : WaitMacros where
  WIFEXITED status := decide (status % 128 = 0)
  WEXITSTATUS status := status / 256 % 256
  WIFSIGNALED status := decide (wrapInt8 (status % 128 + 1) / 2 > 0)
  WTERMSIG status := status % 128
  WIFSTOPPED status := decide (status % 256 = 127)
  WSTOPSIG status := status / 256 % 256

/-- The macros that extract a value from a status word yield non-negative numbers (an
exit code in `0..255` or a signal number).  The macros are a parameter of the decoder,
so this is a premise about the platform; `linuxWaitMacros` satisfies it. -/
def WaitMacros.NonNegative (m : WaitMacros) : Prop :=
  ∀ status : Int,
    0 ≤ m.WEXITSTATUS status ∧ 0 ≤ m.WTERMSIG status ∧ 0 ≤ m.WSTOPSIG status

/-- The three entries of a result array, as a list. -/
def triple (result : Nat → Int) : List Int := [result 0, result 1, result 2]

/-- Number of entries of the result triple that differ from the sentinel `-1000`. -/
def setFields (result : Nat → Int) : Nat :=
  ((triple result).filter (fun v => decide (v ≠ -1000))).length

/-! ## `truffleposix_clock_gettime` (lines 206-213) -/

/-- The OS primitive `clock_gettime(clock, &timespec)`: the return value and the two
fields `tv_sec`, `tv_nsec` of the `timespec` after the call. -/
abbrev ClockGettime := Int → Int × Int × Int

/-- Embedding of `truffleposix_clock_gettime`.
```c
struct timespec timespec;
int ret = clock_gettime((clockid_t) clock, &timespec);
if (ret != 0) { return 0; }
return ((int64_t) timespec.tv_sec * 1000000000) + (int64_t) timespec.tv_nsec;
``` -/
def truffleposix_clock_gettime (clock_gettime : ClockGettime) (clock : Int) : Int :=
  let (ret, tv_sec, tv_nsec) := clock_gettime clock
  if ret ≠ 0 then
    0
  else
    wrapInt64 (wrapInt64 (wrapInt64 tv_sec * 1000000000) + wrapInt64 tv_nsec)

/-! ## `truffleposix_posix_spawnp` (lines 215-269) -/

/-- The two objects that `truffleposix_posix_spawnp` declares as locals and whose
addresses it hands out: `posix_spawn_file_actions_t file_actions` and
`posix_spawnattr_t attrs`. -/
inductive Obj where
  | file_actions
  | attrs
  deriving DecidableEq

/-- A pointer to one of the two objects; `none` is `NULL`. -/
abbrev Ptr := Option Obj

/-- A call of an OS spawn primitive together with its arguments, in the order of the C
prototype (the `pid_t *` out-parameter of `posix_spawnp` is left out). -/
inductive Prim where
  | posix_spawn_file_actions_init (file_actions : Ptr)
  | posix_spawn_file_actions_adddup2 (file_actions : Ptr) (fildes newfildes : Int)
  | posix_spawnattr_init (attr : Ptr)
  | posix_spawnattr_setflags (attr : Ptr) (flags : Int)
  | posix_spawnattr_setpgroup (attr : Ptr) (pgroup : Int)
  | posix_spawnp (file : String) (file_actions attrp : Ptr) (argv envp : List String)
  | posix_spawnattr_destroy (attr : Ptr)
  | posix_spawn_file_actions_destroy (file_actions : Ptr)
  deriving DecidableEq

/-- One executed primitive call: what was called and what it returned. -/
structure Event where
  prim : Prim
  ret : Int
  deriving DecidableEq

/-- The operating system as seen by the spawn path.  `ret tr p` is the `int` returned
by primitive call `p` when the calls `tr` were made before it; `pid tr p` is the value
that `posix_spawnp` stores through its `pid_t *` argument in that situation;
`POSIX_SPAWN_SETPGROUP` is the flag constant of `<spawn.h>`. -/
structure OS where
  ret : List Event → Prim → Int
  pid : List Event → Prim → Int
  POSIX_SPAWN_SETPGROUP : Int

/-- The state the spawn path works on: the primitive calls made so far (oldest first),
the indices of `redirects` read so far, the lines handed to `perror`, and the two
locals `file_actions_ptr` and `attrs_ptr` of `truffleposix_posix_spawnp`, which
`init_and_call_posix_spawnp` updates through `file_actions_ptr` / `attrs_ptr`. -/
structure State where
  trace : List Event
  loads : List Nat
  stderr : List String
  file_actions_ptr : Ptr
  attrs_ptr : Ptr
  deriving DecidableEq

/-- Perform the primitive call `p`: ask the OS for the return value and record the
call. -/
def invoke (os : OS) (p : Prim) (st : State) : Int × State :=
  let r := os.ret st.trace p
  (r, { st with trace := st.trace ++ [⟨p, r⟩] })

/-- The macro `CHECK(call)` up to its `return`:
`if ((error = call) != 0) { perror(#call); return -error; }`.
The result is `some (-error)` when the macro returns from the enclosing function and
`none` when execution continues after it; `text` is the stringified call `#call`. -/
def CHECK (os : OS) (call : Prim) (text : String) (st : State) : Option Int × State :=
  let (error, st) := invoke os call st
  if error ≠ 0 then
    (some (wrapInt (-error)), { st with stderr := st.stderr ++ [text] })
  else
    (none, st)

/-- The loop `for (int i = 0; i < nredirects; i += 2) { ... }` of
`init_and_call_posix_spawnp`, started at counter value `i`.
```c
int from = redirects[i];
int to = redirects[i+1];
CHECK(posix_spawn_file_actions_adddup2(file_actions, to, from));
```
The result is `some r` when a `CHECK` returned `r` from the function.  The counter is a
natural number: it starts at 0 and only grows, and for `nredirects < INT_MAX` it never
leaves the range of `int` (for `nredirects = INT_MAX` the last `i += 2` overflows in C,
which is undefined there). -/
def redirect_loop (os : OS) (nredirects : Int) (redirects : Nat → Int) (file_actions : Ptr)
    (i : Nat) (st : State) : Option Int × State :=
  if (i : Int) < nredirects then
    let from_ := redirects i
    let to_ := redirects (i + 1)
    let st := { st with loads := st.loads ++ [i, i + 1] }
    match CHECK os (.posix_spawn_file_actions_adddup2 file_actions to_ from_)
        "posix_spawn_file_actions_adddup2(file_actions, to, from)" st with
    | (some r, st) => (some r, st)
    | (none, st) => redirect_loop os nredirects redirects file_actions (i + 2) st
  else
    (none, st)
termination_by (nredirects - i).toNat
decreasing_by omega

/-- The block `if (nredirects > 0) { ... }` of `init_and_call_posix_spawnp`. -/
def redirect_block (os : OS) (nredirects : Int) (redirects : Nat → Int) (file_actions : Ptr)
    (st : State) : Option Int × State :=
  if nredirects > 0 then
    match CHECK os (.posix_spawn_file_actions_init file_actions)
        "posix_spawn_file_actions_init(file_actions)" st with
    | (some r, st) => (some r, st)
    | (none, st) =>
      let st := { st with file_actions_ptr := file_actions }
      redirect_loop os nredirects redirects file_actions 0 st
  else
    (none, st)

/-- The block `if (pgroup >= 0) { ... }` of `init_and_call_posix_spawnp`. -/
def pgroup_block (os : OS) (pgroup : Int) (attrs : Ptr) (st : State) : Option Int × State :=
  if pgroup ≥ 0 then
    match CHECK os (.posix_spawnattr_init attrs) "posix_spawnattr_init(attrs)" st with
    | (some r, st) => (some r, st)
    | (none, st) =>
      let st := { st with attrs_ptr := attrs }
      match CHECK os (.posix_spawnattr_setflags attrs os.POSIX_SPAWN_SETPGROUP)
          "posix_spawnattr_setflags(attrs, POSIX_SPAWN_SETPGROUP)" st with
      | (some r, st) => (some r, st)
      | (none, st) =>
        match CHECK os (.posix_spawnattr_setpgroup attrs pgroup)
            "posix_spawnattr_setpgroup(attrs, pgroup)" st with
        | (some r, st) => (some r, st)
        | (none, st) => (none, st)
  else
    (none, st)

/-- Embedding of `init_and_call_posix_spawnp` (lines 217-248).  The pointer arguments
`file_actions` and `attrs` are passed as in C; the out-parameters `file_actions_ptr`
and `attrs_ptr` are the fields of the same name of the state.
```c
pid_t pid = -1;
int ret = posix_spawnp(&pid, command, file_actions, attrs, argv, envp);
if (ret == 0) { return pid; } else { return -ret; }
``` -/
def init_and_call_posix_spawnp (os : OS) (command : String) (argv envp : List String)
    (nredirects : Int) (redirects : Nat → Int) (pgroup : Int)
    (file_actions attrs : Ptr) (st : State) : Int × State :=
  match redirect_block os nredirects redirects file_actions st with
  | (some r, st) => (r, st)
  | (none, st) =>
    match pgroup_block os pgroup attrs st with
    | (some r, st) => (r, st)
    | (none, st) =>
      let call := Prim.posix_spawnp command file_actions attrs argv envp
      let pid := os.pid st.trace call
      let (ret, st) := invoke os call st
      if ret = 0 then
        (pid, st)
      else
        (wrapInt (-ret), st)

/-- Embedding of `truffleposix_posix_spawnp` (lines 250-269): the returned `pid_t` and
the final state, whose `trace` lists every primitive call of the run.
```c
posix_spawn_file_actions_t *file_actions_ptr = NULL;
posix_spawn_file_actions_t file_actions;
posix_spawnattr_t *attrs_ptr = NULL;
posix_spawnattr_t attrs;
pid_t ret = init_and_call_posix_spawnp(command, argv, envp, nredirects, redirects, pgroup,
                                       &file_actions, &file_actions_ptr, &attrs, &attrs_ptr);
if (attrs_ptr) { posix_spawnattr_destroy(attrs_ptr); attrs_ptr = NULL; }
if (file_actions_ptr) { posix_spawn_file_actions_destroy(file_actions_ptr);
                        file_actions_ptr = NULL; }
return ret;
``` -/
def truffleposix_posix_spawnp (os : OS) (command : String) (argv envp : List String)
    (nredirects : Int) (redirects : Nat → Int) (pgroup : Int) : Int × State :=
  let st : State :=
    { trace := [], loads := [], stderr := [], file_actions_ptr := none, attrs_ptr := none }
  let (ret, st) := init_and_call_posix_spawnp os command argv envp nredirects redirects pgroup
    (some Obj.file_actions) (some Obj.attrs) st
  let st :=
    if st.attrs_ptr.isSome then
      let st := (invoke os (.posix_spawnattr_destroy st.attrs_ptr) st).2
      { st with attrs_ptr := none }
    else st
  let st :=
    if st.file_actions_ptr.isSome then
      let st := (invoke os (.posix_spawn_file_actions_destroy st.file_actions_ptr) st).2
      { st with file_actions_ptr := none }
    else st
  (ret, st)

/-! ## Vocabulary for statements about traces -/

/-- The setup primitives, the ones called through `CHECK`. -/
def Prim.isSetup : Prim → Bool
  | .posix_spawn_file_actions_init _ => true
  | .posix_spawn_file_actions_adddup2 _ _ _ => true
  | .posix_spawnattr_init _ => true
  | .posix_spawnattr_setflags _ _ => true
  | .posix_spawnattr_setpgroup _ _ => true
  | _ => false

/-- The spawn primitive `posix_spawnp`. -/
def Prim.isSpawn : Prim → Bool
  | .posix_spawnp _ _ _ _ _ => true
  | _ => false

/-- A call of `posix_spawn_file_actions_init`. -/
def Prim.isFileActionsInit : Prim → Bool
  | .posix_spawn_file_actions_init _ => true
  | _ => false

/-- A call of `posix_spawnattr_init`. -/
def Prim.isAttrInit : Prim → Bool
  | .posix_spawnattr_init _ => true
  | _ => false

/-- A call of `posix_spawn_file_actions_destroy`. -/
def Prim.isFileActionsDestroy : Prim → Bool
  | .posix_spawn_file_actions_destroy _ => true
  | _ => false

/-- A call of `posix_spawnattr_destroy`. -/
def Prim.isAttrDestroy : Prim → Bool
  | .posix_spawnattr_destroy _ => true
  | _ => false

/-- One of the two destroy primitives. -/
def Prim.isDestroy (p : Prim) : Bool := p.isFileActionsDestroy || p.isAttrDestroy

/-- The call passes a pointer to object `o`. -/
def Prim.uses (o : Obj) : Prim → Bool
  | .posix_spawn_file_actions_init fa => fa == some o
  | .posix_spawn_file_actions_adddup2 fa _ _ => fa == some o
  | .posix_spawnattr_init a => a == some o
  | .posix_spawnattr_setflags a _ => a == some o
  | .posix_spawnattr_setpgroup a _ => a == some o
  | .posix_spawnp _ fa a _ _ => fa == some o || a == some o
  | .posix_spawnattr_destroy a => a == some o
  | .posix_spawn_file_actions_destroy fa => fa == some o

/-- The event is a call of `posix_spawn_file_actions_init` that returned 0. -/
def Event.fileActionsInitOK (e : Event) : Bool := e.prim.isFileActionsInit && e.ret == 0

/-- The event is a call of `posix_spawnattr_init` that returned 0. -/
def Event.attrInitOK (e : Event) : Bool := e.prim.isAttrInit && e.ret == 0

/-- Object `o` was initialised by a call in `tr`: an init primitive was called on it and
returned 0. -/
def initialised (o : Obj) (tr : List Event) : Bool :=
  tr.any (fun e => (e.fileActionsInitOK || e.attrInitOK) && e.prim.uses o)

/-- The primitive calls made by `init_and_call_posix_spawnp`: the trace without the
destroy calls that `truffleposix_posix_spawnp` adds afterwards. -/
def setupAndSpawn (tr : List Event) : List Event := tr.filter (fun e => !e.prim.isDestroy)

/-! ## Invariants of the spawn path -/

/-- Every call in `evs` is a setup primitive that returned 0. -/
def SetupOK (evs : List Event) : Prop := ∀ e ∈ evs, e.prim.isSetup = true ∧ e.ret = 0

/-- The bookkeeping pointers agree with the trace: each is non-null exactly when the
matching init call has succeeded. -/
def PtrInv (st : State) : Prop :=
  st.file_actions_ptr
      = (if st.trace.any Event.fileActionsInitOK then some Obj.file_actions else none) ∧
  st.attrs_ptr = (if st.trace.any Event.attrInitOK then some Obj.attrs else none)

/-- The state while every `CHECK` so far has passed. -/
def Progress (st : State) : Prop := PtrInv st ∧ SetupOK st.trace

/-- The state after a `CHECK` returned `r` from the function: the failing setup call is
the last call made and `r` is its negated return value. -/
def Failed (os : OS) (r : Int) (st : State) : Prop :=
  PtrInv st ∧ ∃ pre last, st.trace = pre ++ [last] ∧ SetupOK pre ∧
    last.ret = os.ret pre last.prim ∧
    last.prim.isSetup = true ∧ last.ret ≠ 0 ∧ r = wrapInt (-last.ret)

/-- Outcome of a block of `CHECK`s. -/
def BlockPost (os : OS) (out : Option Int × State) : Prop :=
  match out with
  | (some r, st) => Failed os r st
  | (none, st) => Progress st

/-- Outcome of `init_and_call_posix_spawnp`: successful setup calls followed by one last
call, which is either a failing setup call or the call of `posix_spawnp`. -/
def Final (os : OS) (r : Int) (st : State) : Prop :=
  PtrInv st ∧ ∃ pre last, st.trace = pre ++ [last] ∧ SetupOK pre ∧
    last.ret = os.ret pre last.prim ∧
    ((last.prim.isSetup = true ∧ last.ret ≠ 0 ∧ r = wrapInt (-last.ret)) ∨
      (last.prim.isSpawn = true ∧
        r = if last.ret = 0 then os.pid pre last.prim else wrapInt (-last.ret)))

/-- The destroy calls that `truffleposix_posix_spawnp` makes after the setup-and-spawn
calls `tr`, with return values `ra` and `rf`. -/
def destroys (tr : List Event) (ra rf : Int) : List Event :=
  (if tr.any Event.attrInitOK then [⟨.posix_spawnattr_destroy (some Obj.attrs), ra⟩] else []) ++
  (if tr.any Event.fileActionsInitOK then
    [⟨.posix_spawn_file_actions_destroy (some Obj.file_actions), rf⟩] else [])

/-! ## Concrete inputs -/

/-- An operating system on which every primitive succeeds and the child gets pid 4321. -/
def allSucceedOS : OS :=
  { ret := fun _ _ => 0, pid := fun _ _ => 4321, POSIX_SPAWN_SETPGROUP := 2 }

/-- An operating system whose third primitive call fails with error 12 (`ENOMEM`). -/
def thirdCallFailsOS : OS :=
  { ret := fun tr _ => if tr.length = 2 then 12 else 0, pid := fun _ _ => 4321,
    POSIX_SPAWN_SETPGROUP := 2 }

/-- The redirects array `{1, 7, 2, 8}`: descriptor 1 onto 7 and descriptor 2 onto 8. -/
def exampleRedirects : Nat → Int := fun i => [1, 7, 2, 8].getD i 0

/-! ## Machine integers: facts -/

theorem wrapInt_of_range (x : Int) (h1 : -2147483648 ≤ x) (h2 : x ≤ 2147483647) :
    wrapInt x = x := by
  unfold wrapInt; omega

theorem wrapInt64_of_range (x : Int) (h1 : -9223372036854775808 ≤ x)
    (h2 : x ≤ 9223372036854775807) : wrapInt64 x = x := by
  unfold wrapInt64; omega

theorem wrapInt64_add_mul (x k : Int) :
    wrapInt64 (x + 18446744073709551616 * k) = wrapInt64 x := by
  unfold wrapInt64; omega

theorem wrapInt64_eq_add_mul (x : Int) : ∃ k : Int, wrapInt64 x = x + 18446744073709551616 * k :=
  ⟨-((x + 9223372036854775808) / 18446744073709551616), by unfold wrapInt64; omega⟩

theorem wrapInt64_collapse (s n : Int) :
    wrapInt64 (wrapInt64 (wrapInt64 s * 1000000000) + wrapInt64 n)
      = wrapInt64 (s * 1000000000 + n) := by
  obtain ⟨a, ha⟩ := wrapInt64_eq_add_mul s
  obtain ⟨b, hb⟩ := wrapInt64_eq_add_mul n
  obtain ⟨c, hc⟩ := wrapInt64_eq_add_mul (wrapInt64 s * 1000000000)
  rw [hc, hb, ha]
  have : (s + 18446744073709551616 * a) * 1000000000 + 18446744073709551616 * c
      + (n + 18446744073709551616 * b)
      = (s * 1000000000 + n) + 18446744073709551616 * (a * 1000000000 + c + b) := by ring
  rw [this, wrapInt64_add_mul]

/-! ## The spawn path: every `CHECK` keeps the invariant -/

theorem CHECK_eq (os : OS) (p : Prim) (text : String) (st : State) :
    CHECK os p text st =
      if os.ret st.trace p ≠ 0 then
        (some (wrapInt (-(os.ret st.trace p))),
          { st with trace := st.trace ++ [⟨p, os.ret st.trace p⟩],
                    stderr := st.stderr ++ [text] })
      else (none, { st with trace := st.trace ++ [⟨p, os.ret st.trace p⟩] }) := by
  simp only [CHECK, invoke]

theorem SetupOK_snoc {evs : List Event} {e : Event} (h : SetupOK evs)
    (h1 : e.prim.isSetup = true) (h2 : e.ret = 0) : SetupOK (evs ++ [e]) := by
  intro x hx
  rcases List.mem_append.mp hx with hx | hx
  · exact h x hx
  · have : x = e := by simpa using hx
    subst this; exact ⟨h1, h2⟩

theorem CHECK_post (os : OS) (p : Prim) (text : String) (st : State) (h : Progress st)
    (hs : p.isSetup = true) (h1 : p.isFileActionsInit = false) (h2 : p.isAttrInit = false) :
    BlockPost os (CHECK os p text st) := by
  obtain ⟨⟨hp1, hp2⟩, hok⟩ := h
  rw [CHECK_eq]
  by_cases hr : os.ret st.trace p = 0
  · simp only [hr, ne_eq, not_true_eq_false, if_false, BlockPost, Progress, PtrInv]
    refine ⟨⟨?_, ?_⟩, SetupOK_snoc hok hs rfl⟩
    · simp [hp1, Event.fileActionsInitOK, h1]
    · simp [hp2, Event.attrInitOK, h2]
  · simp only [hr, ne_eq, not_false_eq_true, if_true, BlockPost, Failed, PtrInv]
    refine ⟨⟨?_, ?_⟩, st.trace, ⟨p, os.ret st.trace p⟩, rfl, hok, rfl, hs, hr, rfl⟩
    · simp [hp1, Event.fileActionsInitOK, h1]
    · simp [hp2, Event.attrInitOK, h2]

theorem Progress_loads (st : State) (l : List Nat) (h : Progress st) :
    Progress { st with loads := l } := h

theorem redirect_loop_post (os : OS) (nredirects : Int) (redirects : Nat → Int)
    (file_actions : Ptr) (i : Nat) (st : State) (h : Progress st) :
    BlockPost os (redirect_loop os nredirects redirects file_actions i st) := by
  induction i, st using redirect_loop.induct os nredirects redirects file_actions with
  | case1 i st hlt from_ to_ st1 r st2 hc =>
    rw [redirect_loop]
    simp only [hlt, if_true]
    have hp := CHECK_post os (.posix_spawn_file_actions_adddup2 file_actions to_ from_)
      "posix_spawn_file_actions_adddup2(file_actions, to, from)" st1
      (Progress_loads st _ h) rfl rfl rfl
    rw [hc] at hp ⊢
    exact hp
  | case2 i st hlt from_ to_ st1 st2 hc ih =>
    rw [redirect_loop]
    simp only [hlt, if_true]
    have hp := CHECK_post os (.posix_spawn_file_actions_adddup2 file_actions to_ from_)
      "posix_spawn_file_actions_adddup2(file_actions, to, from)" st1
      (Progress_loads st _ h) rfl rfl rfl
    rw [hc] at hp ⊢
    exact ih hp
  | case3 i st hge =>
    rw [redirect_loop]
    simp only [hge, if_false]
    exact h

theorem redirect_block_post (os : OS) (nredirects : Int) (redirects : Nat → Int)
    (st : State) (h : Progress st) :
    BlockPost os (redirect_block os nredirects redirects (some Obj.file_actions) st) := by
  unfold redirect_block
  by_cases hn : nredirects > 0
  · simp only [hn, if_true]
    rw [CHECK_eq]
    obtain ⟨⟨hp1, hp2⟩, hok⟩ := h
    by_cases hr : os.ret st.trace (.posix_spawn_file_actions_init (some Obj.file_actions)) = 0
    · simp only [hr, ne_eq, not_true_eq_false, if_false]
      apply redirect_loop_post
      refine ⟨⟨?_, ?_⟩, SetupOK_snoc hok rfl rfl⟩
      · simp [Event.fileActionsInitOK, Prim.isFileActionsInit]
      · simp [hp2, Event.attrInitOK, Prim.isAttrInit]
    · simp only [hr, ne_eq, not_false_eq_true, if_true, BlockPost, Failed, PtrInv]
      refine ⟨⟨?_, ?_⟩, st.trace, ⟨_, _⟩, rfl, hok, rfl, rfl, hr, rfl⟩
      · simp [hp1, Event.fileActionsInitOK, hr]
      · simp [hp2, Event.attrInitOK, Prim.isAttrInit]
  · simp only [hn, if_false]
    exact h

theorem pgroup_block_post (os : OS) (pgroup : Int) (st : State) (h : Progress st) :
    BlockPost os (pgroup_block os pgroup (some Obj.attrs) st) := by
  unfold pgroup_block
  by_cases hn : pgroup ≥ 0
  · simp only [hn, if_true]
    rw [CHECK_eq]
    obtain ⟨⟨hp1, hp2⟩, hok⟩ := h
    by_cases hr : os.ret st.trace (.posix_spawnattr_init (some Obj.attrs)) = 0
    · simp only [hr, ne_eq, not_true_eq_false, if_false]
      have h1 : Progress
          { st with trace := st.trace ++ [⟨.posix_spawnattr_init (some Obj.attrs), 0⟩],
                    attrs_ptr := some Obj.attrs } := by
        refine ⟨⟨?_, ?_⟩, SetupOK_snoc hok rfl rfl⟩
        · simp [hp1, Event.fileActionsInitOK, Prim.isFileActionsInit]
        · simp [Event.attrInitOK, Prim.isAttrInit]
      have hp := CHECK_post os (.posix_spawnattr_setflags (some Obj.attrs) os.POSIX_SPAWN_SETPGROUP)
        "posix_spawnattr_setflags(attrs, POSIX_SPAWN_SETPGROUP)" _ h1 rfl rfl rfl
      rcases hc : CHECK os (.posix_spawnattr_setflags (some Obj.attrs) os.POSIX_SPAWN_SETPGROUP)
        "posix_spawnattr_setflags(attrs, POSIX_SPAWN_SETPGROUP)"
          { st with trace := st.trace ++ [⟨.posix_spawnattr_init (some Obj.attrs), 0⟩],
                    attrs_ptr := some Obj.attrs } with ⟨_ | r, st2⟩
      · rw [hc] at hp
        simp only
        have hp2 := CHECK_post os (.posix_spawnattr_setpgroup (some Obj.attrs) pgroup)
          "posix_spawnattr_setpgroup(attrs, pgroup)" st2 hp rfl rfl rfl
        rcases hc2 : CHECK os (.posix_spawnattr_setpgroup (some Obj.attrs) pgroup)
          "posix_spawnattr_setpgroup(attrs, pgroup)" st2 with ⟨_ | r, st3⟩
        · rw [hc2] at hp2; exact hp2
        · rw [hc2] at hp2; exact hp2
      · rw [hc] at hp
        exact hp
    · simp only [hr, ne_eq, not_false_eq_true, if_true, BlockPost, Failed, PtrInv]
      refine ⟨⟨?_, ?_⟩, st.trace, ⟨_, _⟩, rfl, hok, rfl, rfl, hr, rfl⟩
      · simp [hp1, Event.fileActionsInitOK, Prim.isFileActionsInit]
      · simp [hp2, Event.attrInitOK, hr]
  · simp only [hn, if_false]
    exact h

theorem Final_of_Failed (os : OS) (r : Int) (st : State) (h : Failed os r st) :
    Final os r st := by
  obtain ⟨hp, pre, last, e, hok, hc, h1, h2, h3⟩ := h
  exact ⟨hp, pre, last, e, hok, hc, Or.inl ⟨h1, h2, h3⟩⟩

theorem init_and_call_post (os : OS) (command : String) (argv envp : List String)
    (nredirects : Int) (redirects : Nat → Int) (pgroup : Int) (st : State) (h : Progress st) :
    Final os
      (init_and_call_posix_spawnp os command argv envp nredirects redirects pgroup
        (some Obj.file_actions) (some Obj.attrs) st).1
      (init_and_call_posix_spawnp os command argv envp nredirects redirects pgroup
        (some Obj.file_actions) (some Obj.attrs) st).2 := by
  unfold init_and_call_posix_spawnp
  have hb1 := redirect_block_post os nredirects redirects st h
  rcases hc1 : redirect_block os nredirects redirects (some Obj.file_actions) st
    with ⟨_ | r, st1⟩
  · rw [hc1] at hb1
    simp only
    have hb2 := pgroup_block_post os pgroup st1 hb1
    rcases hc2 : pgroup_block os pgroup (some Obj.attrs) st1 with ⟨_ | r, st2⟩
    · rw [hc2] at hb2
      simp only [invoke]
      obtain ⟨⟨hp1, hp2⟩, hok⟩ := hb2
      by_cases hr : os.ret st2.trace
          (.posix_spawnp command (some Obj.file_actions) (some Obj.attrs) argv envp) = 0
      · simp only [hr, if_true]
        refine ⟨⟨?_, ?_⟩, st2.trace, ⟨_, _⟩, rfl, hok, hr.symm, Or.inr ⟨rfl, ?_⟩⟩
        · simp [hp1, Event.fileActionsInitOK, Prim.isFileActionsInit]
        · simp [hp2, Event.attrInitOK, Prim.isAttrInit]
        · simp
      · simp only [hr, if_false]
        refine ⟨⟨?_, ?_⟩, st2.trace, ⟨_, _⟩, rfl, hok, rfl, Or.inr ⟨rfl, ?_⟩⟩
        · simp [hp1, Event.fileActionsInitOK, Prim.isFileActionsInit]
        · simp [hp2, Event.attrInitOK, Prim.isAttrInit]
        · simp [hr]
    · rw [hc2] at hb2
      exact Final_of_Failed os _ _ hb2
  · rw [hc1] at hb1
    exact Final_of_Failed os _ _ hb1

theorem Progress_init :
    Progress { trace := [], loads := [], stderr := [], file_actions_ptr := none,
               attrs_ptr := none } := by
  refine ⟨⟨?_, ?_⟩, ?_⟩
  · simp
  · simp
  · intro e he; simp at he

theorem spawnp_fst (os : OS) (command : String) (argv envp : List String)
    (nredirects : Int) (redirects : Nat → Int) (pgroup : Int) :
    (truffleposix_posix_spawnp os command argv envp nredirects redirects pgroup).1
      = (init_and_call_posix_spawnp os command argv envp nredirects redirects pgroup
          (some Obj.file_actions) (some Obj.attrs)
          { trace := [], loads := [], stderr := [], file_actions_ptr := none,
            attrs_ptr := none }).1 := rfl

theorem spawnp_trace (os : OS) (command : String) (argv envp : List String)
    (nredirects : Int) (redirects : Nat → Int) (pgroup : Int) (r : Int) (st : State)
    (hc : init_and_call_posix_spawnp os command argv envp nredirects redirects pgroup
          (some Obj.file_actions) (some Obj.attrs)
          { trace := [], loads := [], stderr := [], file_actions_ptr := none,
            attrs_ptr := none } = (r, st)) :
    (truffleposix_posix_spawnp os command argv envp nredirects redirects pgroup).2.trace
      = st.trace
        ++ (if st.attrs_ptr.isSome then
              [⟨.posix_spawnattr_destroy st.attrs_ptr,
                os.ret st.trace (.posix_spawnattr_destroy st.attrs_ptr)⟩] else [])
        ++ (if st.file_actions_ptr.isSome then
              [⟨.posix_spawn_file_actions_destroy st.file_actions_ptr,
                os.ret (st.trace ++ (if st.attrs_ptr.isSome then
                    [⟨.posix_spawnattr_destroy st.attrs_ptr,
                      os.ret st.trace (.posix_spawnattr_destroy st.attrs_ptr)⟩] else []))
                  (.posix_spawn_file_actions_destroy st.file_actions_ptr)⟩] else []) := by
  simp only [truffleposix_posix_spawnp, hc, invoke]
  obtain ⟨tr, ld, se, fp, ap⟩ := st
  cases fp <;> cases ap <;> simp

theorem spawnp_loads (os : OS) (command : String) (argv envp : List String)
    (nredirects : Int) (redirects : Nat → Int) (pgroup : Int) (r : Int) (st : State)
    (hc : init_and_call_posix_spawnp os command argv envp nredirects redirects pgroup
          (some Obj.file_actions) (some Obj.attrs)
          { trace := [], loads := [], stderr := [], file_actions_ptr := none,
            attrs_ptr := none } = (r, st)) :
    (truffleposix_posix_spawnp os command argv envp nredirects redirects pgroup).2.loads
      = st.loads := by
  simp only [truffleposix_posix_spawnp, hc, invoke]
  obtain ⟨tr, ld, se, fp, ap⟩ := st
  cases fp <;> cases ap <;> simp

theorem spawnp_shape (os : OS) (command : String) (argv envp : List String)
    (nredirects : Int) (redirects : Nat → Int) (pgroup : Int) :
    ∃ pre last ra rf, SetupOK pre ∧ last.ret = os.ret pre last.prim ∧
      ((last.prim.isSetup = true ∧ last.ret ≠ 0 ∧
          (truffleposix_posix_spawnp os command argv envp nredirects redirects pgroup).1
            = wrapInt (-last.ret)) ∨
        (last.prim.isSpawn = true ∧
          (truffleposix_posix_spawnp os command argv envp nredirects redirects pgroup).1
            = if last.ret = 0 then os.pid pre last.prim else wrapInt (-last.ret))) ∧
      (truffleposix_posix_spawnp os command argv envp nredirects redirects pgroup).2.trace
        = pre ++ [last] ++ destroys (pre ++ [last]) ra rf := by
  have hf := init_and_call_post os command argv envp nredirects redirects pgroup _ Progress_init
  rw [spawnp_fst]
  rcases hc : init_and_call_posix_spawnp os command argv envp nredirects redirects pgroup
      (some Obj.file_actions) (some Obj.attrs)
      { trace := [], loads := [], stderr := [], file_actions_ptr := none, attrs_ptr := none }
    with ⟨r, st⟩
  rw [spawnp_trace os command argv envp nredirects redirects pgroup r st hc]
  rw [hc] at hf
  obtain ⟨⟨hp1, hp2⟩, pre, last, htr, hok, hcons, hlast⟩ := hf
  simp only at hp1 hp2 htr hlast
  refine ⟨pre, last, os.ret st.trace (.posix_spawnattr_destroy (some Obj.attrs)),
    os.ret (st.trace ++ (if st.trace.any Event.attrInitOK then
        [⟨.posix_spawnattr_destroy (some Obj.attrs),
          os.ret st.trace (.posix_spawnattr_destroy (some Obj.attrs))⟩] else []))
      (.posix_spawn_file_actions_destroy (some Obj.file_actions)),
    hok, hcons, hlast, ?_⟩
  rw [← htr]
  simp only [destroys, hp1, hp2]
  by_cases hA : st.trace.any Event.attrInitOK = true <;>
  by_cases hF : st.trace.any Event.fileActionsInitOK = true <;>
  simp [hA, hF]

/-! ## The spawn path: classification of the calls in a trace -/

theorem setup_not_other (p : Prim) (h : p.isSetup = true) :
    p.isFileActionsDestroy = false ∧ p.isAttrDestroy = false ∧ p.isSpawn = false := by
  cases p <;> simp_all [Prim.isSetup, Prim.isFileActionsDestroy, Prim.isAttrDestroy, Prim.isSpawn]

theorem spawn_not_other (p : Prim) (h : p.isSpawn = true) :
    p.isFileActionsDestroy = false ∧ p.isAttrDestroy = false ∧ p.isSetup = false ∧
      p.isFileActionsInit = false ∧ p.isAttrInit = false := by
  cases p <;> simp_all [Prim.isSetup, Prim.isFileActionsDestroy, Prim.isAttrDestroy, Prim.isSpawn,
    Prim.isFileActionsInit, Prim.isAttrInit]

theorem destroys_countP_fa (tr : List Event) (ra rf : Int) :
    (destroys tr ra rf).countP (fun e => e.prim.isFileActionsDestroy)
      = if tr.any Event.fileActionsInitOK then 1 else 0 := by
  unfold destroys
  cases tr.any Event.attrInitOK <;> cases tr.any Event.fileActionsInitOK <;>
    simp [Prim.isFileActionsDestroy]

theorem destroys_countP_attr (tr : List Event) (ra rf : Int) :
    (destroys tr ra rf).countP (fun e => e.prim.isAttrDestroy)
      = if tr.any Event.attrInitOK then 1 else 0 := by
  unfold destroys
  cases tr.any Event.attrInitOK <;> cases tr.any Event.fileActionsInitOK <;>
    simp [Prim.isAttrDestroy]

theorem destroys_any_init (tr : List Event) (ra rf : Int) :
    (destroys tr ra rf).any Event.fileActionsInitOK = false ∧
    (destroys tr ra rf).any Event.attrInitOK = false := by
  unfold destroys
  cases tr.any Event.attrInitOK <;> cases tr.any Event.fileActionsInitOK <;>
    simp [Event.fileActionsInitOK, Event.attrInitOK, Prim.isFileActionsInit, Prim.isAttrInit]

theorem destroys_pairwise (tr : List Event) (ra rf : Int) :
    (destroys tr ra rf).Pairwise
      (fun a b => a.prim.isFileActionsDestroy = true → b.prim.uses Obj.file_actions = false) ∧
    (destroys tr ra rf).Pairwise
      (fun a b => a.prim.isAttrDestroy = true → b.prim.uses Obj.attrs = false) := by
  unfold destroys
  cases tr.any Event.attrInitOK <;> cases tr.any Event.fileActionsInitOK <;>
    simp [Prim.isFileActionsDestroy, Prim.isAttrDestroy, Prim.uses]

theorem destroys_mem (tr : List Event) (ra rf : Int) :
    ∀ e ∈ destroys tr ra rf,
      e.prim.isSetup = false ∧ e.prim.isSpawn = false ∧ e.prim.isDestroy = true := by
  unfold destroys
  cases tr.any Event.attrInitOK <;> cases tr.any Event.fileActionsInitOK <;>
    simp [Prim.isSetup, Prim.isSpawn, Prim.isDestroy, Prim.isFileActionsDestroy,
      Prim.isAttrDestroy]

theorem destroys_prim (tr : List Event) (ra rf : Int) :
    ∀ e ∈ destroys tr ra rf,
      (e.prim = .posix_spawnattr_destroy (some Obj.attrs) ∧
        e.prim.isFileActionsDestroy = false) ∨
      (e.prim = .posix_spawn_file_actions_destroy (some Obj.file_actions) ∧
        e.prim.isAttrDestroy = false) := by
  unfold destroys
  cases tr.any Event.attrInitOK <;> cases tr.any Event.fileActionsInitOK <;>
    simp [Prim.isFileActionsDestroy, Prim.isAttrDestroy]

theorem calls_not_destroy (os : OS) (pre : List Event) (last : Event) (r : Int)
    (hok : SetupOK pre)
    (hlast : (last.prim.isSetup = true ∧ last.ret ≠ 0 ∧ r = wrapInt (-last.ret)) ∨
      (last.prim.isSpawn = true ∧
        r = if last.ret = 0 then os.pid pre last.prim else wrapInt (-last.ret))) :
    ∀ e ∈ pre ++ [last],
      e.prim.isFileActionsDestroy = false ∧ e.prim.isAttrDestroy = false := by
  intro e he
  rcases List.mem_append.mp he with he | he
  · exact ⟨(setup_not_other _ (hok e he).1).1, (setup_not_other _ (hok e he).1).2.1⟩
  · have : e = last := by simpa using he
    subst this
    rcases hlast with ⟨h, _⟩ | ⟨h, _⟩
    · exact ⟨(setup_not_other _ h).1, (setup_not_other _ h).2.1⟩
    · exact ⟨(spawn_not_other _ h).1, (spawn_not_other _ h).2.1⟩

theorem setupAndSpawn_shape (T : List Event) (ra rf : Int)
    (hT : ∀ e ∈ T, e.prim.isFileActionsDestroy = false ∧ e.prim.isAttrDestroy = false) :
    setupAndSpawn (T ++ destroys T ra rf) = T := by
  unfold setupAndSpawn
  rw [List.filter_append]
  have h1 : T.filter (fun e => !e.prim.isDestroy) = T :=
    List.filter_eq_self.mpr (fun e he => by simp [Prim.isDestroy, (hT e he).1, (hT e he).2])
  have h2 : (destroys T ra rf).filter (fun e => !e.prim.isDestroy) = [] :=
    List.filter_eq_nil_iff.mpr (fun e he => by simp [(destroys_mem T ra rf e he).2.2])
  rw [h1, h2, List.append_nil]

theorem Failed_mem (os : OS) (r : Int) (st : State) (h : Failed os r st) :
    ∃ e ∈ st.trace, e.prim.isSetup = true ∧ e.ret ≠ 0 := by
  obtain ⟨_, pre, last, htr, _, _, h1, h2, _⟩ := h
  exact ⟨last, by rw [htr]; simp, h1, h2⟩

/-! ## The spawn path: the run in which every setup call succeeds -/

theorem redirect_loop_none (os : OS) (redirects : Nat → Int) (file_actions : Ptr) :
    ∀ (k i : Nat) (nredirects : Int) (st st1 : State), nredirects = i + 2 * k →
      redirect_loop os nredirects redirects file_actions i st = (none, st1) →
      st1.trace.map Event.prim
          = st.trace.map Event.prim ++ (List.range k).map (fun j =>
              Prim.posix_spawn_file_actions_adddup2 file_actions
                (redirects (i + 2 * j + 1)) (redirects (i + 2 * j))) ∧
        st1.file_actions_ptr = st.file_actions_ptr ∧ st1.attrs_ptr = st.attrs_ptr := by
  intro k
  induction k with
  | zero =>
    intro i nredirects st st1 hn h
    have hlt : ¬ (i : Int) < nredirects := by omega
    rw [redirect_loop] at h
    simp only [hlt, if_false, Prod.mk.injEq, true_and] at h
    subst h
    simp
  | succ k ih =>
    intro i nredirects st st1 hn h
    have hlt : (i : Int) < nredirects := by omega
    rw [redirect_loop] at h
    simp only [hlt, if_true, CHECK_eq] at h
    by_cases hr : os.ret st.trace
        (.posix_spawn_file_actions_adddup2 file_actions (redirects (i + 1)) (redirects i)) = 0
    · simp only [hr, ne_eq, not_true_eq_false, if_false] at h
      obtain ⟨h1, h3, h4⟩ := ih (i + 2) nredirects _ st1 (by push_cast; omega) h
      refine ⟨?_, h3, h4⟩
      · rw [h1, List.range_succ_eq_map]
        simp only [List.map_append, List.map_cons, List.map_nil, List.append_assoc,
          List.singleton_append, List.map_map, Nat.mul_zero, Nat.add_zero]
        congr 2
        apply List.map_congr_left
        intro j _
        simp only [Function.comp, Nat.succ_eq_add_one]
        have e1 : i + 2 + 2 * j = i + 2 * (j + 1) := by omega
        rw [e1]
    · simp only [hr, ne_eq, not_false_eq_true, if_true] at h
      exact absurd (congrArg Prod.fst h) (by simp)

theorem redirect_loop_loads (os : OS) (redirects : Nat → Int) (file_actions : Ptr) :
    ∀ (k i : Nat) (nredirects : Int) (st : State), nredirects = i + 2 * k →
      ∀ x ∈ (redirect_loop os nredirects redirects file_actions i st).2.loads,
        x ∈ st.loads ∨ (x : Int) < nredirects := by
  intro k
  induction k with
  | zero =>
    intro i nredirects st hn x hx
    have hlt : ¬ (i : Int) < nredirects := by omega
    rw [redirect_loop] at hx
    simp only [hlt, if_false] at hx
    exact Or.inl hx
  | succ k ih =>
    intro i nredirects st hn x hx
    have hlt : (i : Int) < nredirects := by omega
    rw [redirect_loop] at hx
    simp only [hlt, if_true, CHECK_eq] at hx
    by_cases hr : os.ret st.trace
        (.posix_spawn_file_actions_adddup2 file_actions (redirects (i + 1)) (redirects i)) = 0
    · simp only [hr, ne_eq, not_true_eq_false, if_false] at hx
      rcases ih (i + 2) nredirects _ (by push_cast; omega) x hx with h | h
      · simp only [List.mem_append, List.mem_cons, List.mem_singleton, List.not_mem_nil,
          or_false] at h
        rcases h with h | h | h
        · exact Or.inl h
        · right; omega
        · right; omega
      · exact Or.inr h
    · simp only [hr, ne_eq, not_false_eq_true, if_true, List.mem_append, List.mem_cons,
        List.mem_singleton, List.not_mem_nil, or_false] at hx
      rcases hx with h | h | h
      · exact Or.inl h
      · right; omega
      · right; omega

theorem redirect_block_none (os : OS) (redirects : Nat → Int) (file_actions : Ptr)
    (k : Nat) (hk : 0 < k) (st st1 : State)
    (h : redirect_block os (2 * (k : Int)) redirects file_actions st = (none, st1)) :
    st1.trace.map Event.prim
        = st.trace.map Event.prim ++ Prim.posix_spawn_file_actions_init file_actions ::
            (List.range k).map (fun j =>
              Prim.posix_spawn_file_actions_adddup2 file_actions
                (redirects (2 * j + 1)) (redirects (2 * j))) ∧
      (∀ x ∈ st1.loads, x ∈ st.loads ∨ x < 2 * k) ∧
      st1.file_actions_ptr = file_actions ∧ st1.attrs_ptr = st.attrs_ptr := by
  have hn : 2 * (k : Int) > 0 := by omega
  unfold redirect_block at h
  simp only [hn, if_true, CHECK_eq] at h
  by_cases hr : os.ret st.trace (.posix_spawn_file_actions_init file_actions) = 0
  · simp only [hr, ne_eq, not_true_eq_false, if_false] at h
    obtain ⟨h1, h2, h3⟩ :=
      redirect_loop_none os redirects file_actions k 0 (2 * (k : Int)) _ st1
        (by push_cast; omega) h
    have hl := redirect_loop_loads os redirects file_actions k 0 (2 * (k : Int))
      { st with trace := st.trace ++ [⟨.posix_spawn_file_actions_init file_actions, 0⟩],
                file_actions_ptr := file_actions } (by push_cast; omega)
    rw [h] at hl
    refine ⟨?_, ?_, h2, h3⟩
    · rw [h1]
      simp only [List.map_append, List.map_cons, List.map_nil, List.append_assoc,
        List.singleton_append, Nat.zero_add]
    · intro x hx
      rcases hl x hx with h | h
      · exact Or.inl h
      · right; omega
  · simp only [hr, ne_eq, not_false_eq_true, if_true] at h
    exact absurd (congrArg Prod.fst h) (by simp)

theorem pgroup_block_none (os : OS) (pgroup : Int) (attrs : Ptr) (st st1 : State)
    (h : pgroup_block os pgroup attrs st = (none, st1)) :
    st1.trace.map Event.prim
        = st.trace.map Event.prim ++
          (if pgroup ≥ 0 then
            [Prim.posix_spawnattr_init attrs,
             Prim.posix_spawnattr_setflags attrs os.POSIX_SPAWN_SETPGROUP,
             Prim.posix_spawnattr_setpgroup attrs pgroup] else []) ∧
      st1.loads = st.loads ∧ st1.file_actions_ptr = st.file_actions_ptr ∧
      st1.attrs_ptr = (if pgroup ≥ 0 then attrs else st.attrs_ptr) := by
  unfold pgroup_block at h
  by_cases hn : pgroup ≥ 0
  · simp only [hn, if_true, CHECK_eq] at h ⊢
    by_cases hr1 : os.ret st.trace (.posix_spawnattr_init attrs) = 0
    · simp only [hr1, ne_eq, not_true_eq_false, if_false] at h
      by_cases hr2 : os.ret (st.trace ++ [⟨.posix_spawnattr_init attrs, 0⟩])
          (.posix_spawnattr_setflags attrs os.POSIX_SPAWN_SETPGROUP) = 0
      · simp only [hr2, ne_eq, not_true_eq_false, if_false] at h
        by_cases hr3 : os.ret (st.trace ++ [⟨.posix_spawnattr_init attrs, 0⟩] ++
            [⟨.posix_spawnattr_setflags attrs os.POSIX_SPAWN_SETPGROUP, 0⟩])
            (.posix_spawnattr_setpgroup attrs pgroup) = 0
        · simp only [hr3, ne_eq, not_true_eq_false, if_false, Prod.mk.injEq, true_and] at h
          subst h
          simp
        · simp only [hr3, ne_eq, not_false_eq_true, if_true] at h
          exact absurd (congrArg Prod.fst h) (by simp)
      · simp only [hr2, ne_eq, not_false_eq_true, if_true] at h
        exact absurd (congrArg Prod.fst h) (by simp)
    · simp only [hr1, ne_eq, not_false_eq_true, if_true] at h
      exact absurd (congrArg Prod.fst h) (by simp)
  · simp only [hn, if_false, Prod.mk.injEq, true_and] at h ⊢
    subst h
    simp

/-! ## Evaluation on the concrete inputs -/

theorem eval_all_succeed :
    (truffleposix_posix_spawnp allSucceedOS "ls" ["ls"] [] 4 exampleRedirects 5).2.trace
      = [⟨.posix_spawn_file_actions_init (some Obj.file_actions), 0⟩,
         ⟨.posix_spawn_file_actions_adddup2 (some Obj.file_actions) 7 1, 0⟩,
         ⟨.posix_spawn_file_actions_adddup2 (some Obj.file_actions) 8 2, 0⟩,
         ⟨.posix_spawnattr_init (some Obj.attrs), 0⟩,
         ⟨.posix_spawnattr_setflags (some Obj.attrs) 2, 0⟩,
         ⟨.posix_spawnattr_setpgroup (some Obj.attrs) 5, 0⟩,
         ⟨.posix_spawnp "ls" (some Obj.file_actions) (some Obj.attrs) ["ls"] [], 0⟩,
         ⟨.posix_spawnattr_destroy (some Obj.attrs), 0⟩,
         ⟨.posix_spawn_file_actions_destroy (some Obj.file_actions), 0⟩] := by
  simp [truffleposix_posix_spawnp, init_and_call_posix_spawnp, redirect_block, redirect_loop,
    pgroup_block, CHECK, invoke, allSucceedOS, exampleRedirects]

theorem eval_third_call_fails :
    (truffleposix_posix_spawnp thirdCallFailsOS "ls" ["ls"] [] 4 exampleRedirects 5).2.trace
      = [⟨.posix_spawn_file_actions_init (some Obj.file_actions), 0⟩,
         ⟨.posix_spawn_file_actions_adddup2 (some Obj.file_actions) 7 1, 0⟩,
         ⟨.posix_spawn_file_actions_adddup2 (some Obj.file_actions) 8 2, 12⟩,
         ⟨.posix_spawn_file_actions_destroy (some Obj.file_actions), 0⟩] := by
  simp [truffleposix_posix_spawnp, init_and_call_posix_spawnp, redirect_block, redirect_loop,
    pgroup_block, CHECK, invoke, thirdCallFailsOS, exampleRedirects]

theorem linuxWaitMacros_nonNegative : linuxWaitMacros.NonNegative := by
  intro status
  simp only [linuxWaitMacros]
  omega

/-! ## The claims -/

/-- Claim C1 (the code at the failing input): with no redirections (`nredirects = 0`) and no
process group (`pgroup = -1`), on every OS and for every command, the only primitive call
of `truffleposix_posix_spawnp` is `posix_spawnp`, and it receives the non-null pointers
`&file_actions` and `&attrs` although neither object was initialised by a call of this
run (and, accordingly, neither is destroyed). -/
theorem C1_spawnp_receives_uninitialised_objects (os : OS) (command : String)
    (argv envp : List String) (redirects : Nat → Int) :
    (truffleposix_posix_spawnp os command argv envp 0 redirects (-1)).2.trace
      = [⟨.posix_spawnp command (some Obj.file_actions) (some Obj.attrs) argv envp,
          os.ret [] (.posix_spawnp command (some Obj.file_actions) (some Obj.attrs) argv envp)⟩] ∧
    initialised Obj.file_actions
      (truffleposix_posix_spawnp os command argv envp 0 redirects (-1)).2.trace = false ∧
    initialised Obj.attrs
      (truffleposix_posix_spawnp os command argv envp 0 redirects (-1)).2.trace = false := by
  have h : (truffleposix_posix_spawnp os command argv envp 0 redirects (-1)).2.trace
      = [⟨.posix_spawnp command (some Obj.file_actions) (some Obj.attrs) argv envp,
          os.ret [] (.posix_spawnp command (some Obj.file_actions) (some Obj.attrs) argv envp)⟩] := by
    have h0 : ¬ ((0 : Int) > 0) := by decide
    have h1 : ¬ ((-1 : Int) ≥ 0) := by decide
    simp only [truffleposix_posix_spawnp, init_and_call_posix_spawnp, redirect_block,
      pgroup_block, invoke, h0, h1, if_false]
    split <;> rfl
  rw [h]
  simp [initialised, Event.fileActionsInitOK, Event.attrInitOK, Prim.isFileActionsInit,
    Prim.isAttrInit]

/-- Claim C2: in the trace of every run of `truffleposix_posix_spawnp`, whatever the OS
answers, `posix_spawn_file_actions_destroy` occurs exactly once if a call of
`posix_spawn_file_actions_init` returned 0 and not at all otherwise, and likewise for
`posix_spawnattr_destroy` and `posix_spawnattr_init`; each destroy call is applied to
the object of this run; and no call that comes after a destroy call in the trace
(the trace ends when the function returns) uses the destroyed object. -/
theorem C2_destroy_once_after_last_use (os : OS) (command : String) (argv envp : List String)
    (nredirects : Int) (redirects : Nat → Int) (pgroup : Int) :
    ((truffleposix_posix_spawnp os command argv envp nredirects redirects pgroup).2.trace.countP
        (fun e => e.prim.isFileActionsDestroy)
      = if (truffleposix_posix_spawnp os command argv envp nredirects redirects pgroup).2.trace.any
            Event.fileActionsInitOK then 1 else 0) ∧
    ((truffleposix_posix_spawnp os command argv envp nredirects redirects pgroup).2.trace.countP
        (fun e => e.prim.isAttrDestroy)
      = if (truffleposix_posix_spawnp os command argv envp nredirects redirects pgroup).2.trace.any
            Event.attrInitOK then 1 else 0) ∧
    (∀ e ∈ (truffleposix_posix_spawnp os command argv envp nredirects redirects pgroup).2.trace,
      e.prim.isFileActionsDestroy = true →
        e.prim = .posix_spawn_file_actions_destroy (some Obj.file_actions)) ∧
    (∀ e ∈ (truffleposix_posix_spawnp os command argv envp nredirects redirects pgroup).2.trace,
      e.prim.isAttrDestroy = true → e.prim = .posix_spawnattr_destroy (some Obj.attrs)) ∧
    (truffleposix_posix_spawnp os command argv envp nredirects redirects pgroup).2.trace.Pairwise
        (fun a b => a.prim.isFileActionsDestroy = true → b.prim.uses Obj.file_actions = false) ∧
    (truffleposix_posix_spawnp os command argv envp nredirects redirects pgroup).2.trace.Pairwise
        (fun a b => a.prim.isAttrDestroy = true → b.prim.uses Obj.attrs = false) := by
  obtain ⟨pre, last, ra, rf, hok, _, hlast, htr⟩ :=
    spawnp_shape os command argv envp nredirects redirects pgroup
  rw [htr]
  have hT := calls_not_destroy os pre last _ hok hlast
  generalize pre ++ [last] = T at hT ⊢
  have c1 : T.countP (fun e => e.prim.isFileActionsDestroy) = 0 :=
    List.countP_eq_zero.mpr (fun e he => by simp [(hT e he).1])
  have c2 : T.countP (fun e => e.prim.isAttrDestroy) = 0 :=
    List.countP_eq_zero.mpr (fun e he => by simp [(hT e he).2])
  refine ⟨?_, ?_, ?_, ?_, ?_, ?_⟩
  · rw [List.countP_append, c1, destroys_countP_fa, List.any_append, (destroys_any_init T ra rf).1]
    simp
  · rw [List.countP_append, c2, destroys_countP_attr, List.any_append,
      (destroys_any_init T ra rf).2]
    simp
  · intro e he h
    rcases List.mem_append.mp he with h1 | h1
    · rw [(hT e h1).1] at h; exact absurd h (by decide)
    · rcases destroys_prim T ra rf e h1 with ⟨_, h2⟩ | ⟨h2, _⟩
      · rw [h2] at h; exact absurd h (by decide)
      · exact h2
  · intro e he h
    rcases List.mem_append.mp he with h1 | h1
    · rw [(hT e h1).2] at h; exact absurd h (by decide)
    · rcases destroys_prim T ra rf e h1 with ⟨h2, _⟩ | ⟨_, h2⟩
      · exact h2
      · rw [h2] at h; exact absurd h (by decide)
  · rw [List.pairwise_append]
    refine ⟨List.pairwise_of_forall_mem_list (fun a ha b _ h => ?_),
      (destroys_pairwise T ra rf).1, fun a ha b _ h => ?_⟩
    · rw [(hT a ha).1] at h; exact absurd h (by decide)
    · rw [(hT a ha).1] at h; exact absurd h (by decide)
  · rw [List.pairwise_append]
    refine ⟨List.pairwise_of_forall_mem_list (fun a ha b _ h => ?_),
      (destroys_pairwise T ra rf).2, fun a ha b _ h => ?_⟩
    · rw [(hT a ha).2] at h; exact absurd h (by decide)
    · rw [(hT a ha).2] at h; exact absurd h (by decide)

/-- Claim C3: assume every setup or spawn primitive returns 0 or a positive `int` error
number, and that `posix_spawnp` stores a positive pid whenever it returns 0.  Then the result of `truffleposix_posix_spawnp` is never 0; it is positive
exactly when every such call returned 0, and then it is the pid stored by the last call,
which is `posix_spawnp`; and if some call returned a non-zero error, the result is the
negation of that error and is negative.  The return values of the two destroy calls are
ignored by the code and are not constrained here. -/
theorem C3_result_pid_or_negated_error (os : OS) (command : String) (argv envp : List String)
    (nredirects : Int) (redirects : Nat → Int) (pgroup : Int)
    (hret : ∀ tr p, p.isDestroy = false →
      os.ret tr p = 0 ∨ (0 < os.ret tr p ∧ os.ret tr p ≤ 2147483647))
    (hpid : ∀ tr p, p.isSpawn = true → os.ret tr p = 0 → 0 < os.pid tr p) :
    (truffleposix_posix_spawnp os command argv envp nredirects redirects pgroup).1 ≠ 0 ∧
    ((∀ e ∈ setupAndSpawn
          (truffleposix_posix_spawnp os command argv envp nredirects redirects pgroup).2.trace,
          e.ret = 0) ↔
      0 < (truffleposix_posix_spawnp os command argv envp nredirects redirects pgroup).1) ∧
    ((∀ e ∈ setupAndSpawn
          (truffleposix_posix_spawnp os command argv envp nredirects redirects pgroup).2.trace,
          e.ret = 0) →
      ∃ pre last, setupAndSpawn
          (truffleposix_posix_spawnp os command argv envp nredirects redirects pgroup).2.trace
            = pre ++ [last] ∧ last.prim.isSpawn = true ∧
        (truffleposix_posix_spawnp os command argv envp nredirects redirects pgroup).1
          = os.pid pre last.prim) ∧
    (∀ e ∈ setupAndSpawn
        (truffleposix_posix_spawnp os command argv envp nredirects redirects pgroup).2.trace,
        e.ret ≠ 0 →
        (truffleposix_posix_spawnp os command argv envp nredirects redirects pgroup).1 = -e.ret ∧
        (truffleposix_posix_spawnp os command argv envp nredirects redirects pgroup).1 < 0) := by
  obtain ⟨pre, last, ra, rf, hok, hcons, hlast, htr⟩ :=
    spawnp_shape os command argv envp nredirects redirects pgroup
  have hT := calls_not_destroy os pre last _ hok hlast
  rw [htr, setupAndSpawn_shape _ ra rf hT]
  have hlr : last.ret = 0 ∨ (0 < last.ret ∧ last.ret ≤ 2147483647) := by
    rw [hcons]
    exact hret pre last.prim
      (by simp [Prim.isDestroy, (hT last (by simp)).1, (hT last (by simp)).2])
  have hmem : ∀ e ∈ pre ++ [last], e.ret ≠ 0 → e = last := by
    intro e he hne
    rcases List.mem_append.mp he with he | he
    · exact absurd (hok e he).2 hne
    · simpa using he
  have hneg : last.ret ≠ 0 → wrapInt (-last.ret) = -last.ret ∧ -last.ret < 0 := by
    intro hne
    rcases hlr with h | ⟨h1, h2⟩
    · exact absurd h hne
    · exact ⟨wrapInt_of_range _ (by omega) (by omega), by omega⟩
  by_cases hz : last.ret = 0
  · -- every call returned 0, so the last call is the spawn
    have hsp : last.prim.isSpawn = true ∧
        (truffleposix_posix_spawnp os command argv envp nredirects redirects pgroup).1
          = os.pid pre last.prim := by
      rcases hlast with ⟨_, h, _⟩ | ⟨h1, h2⟩
      · exact absurd hz h
      · exact ⟨h1, by rw [h2, if_pos hz]⟩
    have hall : ∀ e ∈ pre ++ [last], e.ret = 0 := by
      intro e he
      by_contra hne
      rw [hmem e he hne] at hne
      exact hne hz
    have hpos := hpid pre last.prim hsp.1 (by rw [← hcons]; exact hz)
    rw [← hsp.2] at hpos
    refine ⟨by omega, ⟨fun _ => hpos, fun _ => hall⟩,
      fun _ => ⟨pre, last, rfl, hsp⟩, ?_⟩
    intro e he hne
    exact absurd (hall e he) hne
  · have hr : (truffleposix_posix_spawnp os command argv envp nredirects redirects pgroup).1
        = wrapInt (-last.ret) := by
      rcases hlast with ⟨_, _, h⟩ | ⟨_, h⟩
      · exact h
      · rw [h, if_neg hz]
    obtain ⟨hw, hlt⟩ := hneg hz
    rw [hw] at hr
    have hnall : ¬ ∀ e ∈ pre ++ [last], e.ret = 0 := fun h => hz (h last (by simp))
    refine ⟨by omega, ⟨fun h => absurd h hnall, fun h => by omega⟩,
      fun h => absurd h hnall, ?_⟩
    intro e he hne
    rw [hmem e he hne]
    exact ⟨hr, by omega⟩

/-- Witness for C3: on `allSucceedOS` with two redirection pairs and process group 5 the
hypotheses hold and the result is not 0. -/
theorem C3_result_pid_or_negated_error_witness :
    (truffleposix_posix_spawnp allSucceedOS "ls" ["ls"] [] 4 exampleRedirects 5).1 ≠ 0 :=
  (C3_result_pid_or_negated_error allSucceedOS "ls" ["ls"] [] 4 exampleRedirects 5
    (fun _ _ _ => Or.inl rfl) (fun _ _ _ _ => by show (0 : Int) < 4321; decide)).1

/-- Claim C4: if a setup primitive invoked by `truffleposix_posix_spawnp` returned a non-zero
value, recorded as event `e`, then the function returns the `int` negation of `e.ret`
(which is `-e.ret` for every `int` other than `INT_MIN`), `posix_spawnp` is not invoked
at all, no setup primitive or spawn is invoked after a failing setup call, and every call
before `e` had returned 0. -/
theorem C4_setup_failure_short_circuits (os : OS) (command : String) (argv envp : List String)
    (nredirects : Int) (redirects : Nat → Int) (pgroup : Int) (e : Event)
    (he : e ∈
      (truffleposix_posix_spawnp os command argv envp nredirects redirects pgroup).2.trace)
    (hs : e.prim.isSetup = true) (hne : e.ret ≠ 0) :
    (truffleposix_posix_spawnp os command argv envp nredirects redirects pgroup).1
        = wrapInt (-e.ret) ∧
    (-2147483648 < e.ret ∧ e.ret ≤ 2147483647 →
      (truffleposix_posix_spawnp os command argv envp nredirects redirects pgroup).1 = -e.ret) ∧
    (∀ x ∈ (truffleposix_posix_spawnp os command argv envp nredirects redirects pgroup).2.trace,
      x.prim.isSpawn = false) ∧
    (truffleposix_posix_spawnp os command argv envp nredirects redirects pgroup).2.trace.Pairwise
      (fun a b => a.prim.isSetup = true ∧ a.ret ≠ 0 →
        b.prim.isSetup = false ∧ b.prim.isSpawn = false) ∧
    (truffleposix_posix_spawnp os command argv envp nredirects redirects pgroup).2.trace.Pairwise
      (fun a b => b = e → a.ret = 0) := by
  obtain ⟨pre, last, ra, rf, hok, hcons, hlast, htr⟩ :=
    spawnp_shape os command argv envp nredirects redirects pgroup
  rw [htr] at he ⊢
  have hD := destroys_mem (pre ++ [last]) ra rf
  -- the failing setup call is the last call of `init_and_call_posix_spawnp`
  have hel : e = last := by
    rcases List.mem_append.mp he with h | h
    · rcases List.mem_append.mp h with h | h
      · exact absurd (hok e h).2 hne
      · simpa using h
    · rw [(hD e h).1] at hs; exact absurd hs (by decide)
  subst hel
  have hr : (truffleposix_posix_spawnp os command argv envp nredirects redirects pgroup).1
      = wrapInt (-e.ret) := by
    rcases hlast with ⟨_, _, h⟩ | ⟨h, _⟩
    · exact h
    · rw [(spawn_not_other _ h).2.2.1] at hs; exact absurd hs (by decide)
  have hns : ∀ x ∈ pre ++ [e], x.prim.isSpawn = false := by
    intro x hx
    rcases List.mem_append.mp hx with h | h
    · exact (setup_not_other _ (hok x h).1).2.2
    · have : x = e := by simpa using h
      rw [this]; exact (setup_not_other _ hs).2.2
  refine ⟨hr, fun hrange => ?_, ?_, ?_, ?_⟩
  · rw [hr]; exact wrapInt_of_range _ (by omega) (by omega)
  · intro x hx
    rcases List.mem_append.mp hx with h | h
    · exact hns x h
    · exact (hD x h).2.1
  · rw [List.pairwise_append, List.pairwise_append]
    refine ⟨⟨List.pairwise_of_forall_mem_list (fun a ha b _ h => absurd (hok a ha).2 h.2),
      List.pairwise_singleton _ _, fun a ha b _ h => absurd (hok a ha).2 h.2⟩,
      List.pairwise_of_forall_mem_list (fun a ha b _ h => ?_),
      fun a _ b hb _ => ⟨(hD b hb).1, (hD b hb).2.1⟩⟩
    rw [(hD a ha).1] at h; exact absurd h.1 (by decide)
  · rw [List.pairwise_append, List.pairwise_append]
    refine ⟨⟨List.pairwise_of_forall_mem_list (fun a ha b _ _ => (hok a ha).2),
      List.pairwise_singleton _ _, fun a ha b _ _ => (hok a ha).2⟩,
      List.pairwise_of_forall_mem_list (fun a _ b hb h => ?_),
      fun a _ b hb h => ?_⟩
    · have h1 := (hD b hb).1
      rw [h, hs] at h1; exact absurd h1 (by decide)
    · have h1 := (hD b hb).1
      rw [h, hs] at h1; exact absurd h1 (by decide)

/-- Witness for C4: on `thirdCallFailsOS` the second `adddup2` fails with 12 and the result
is -12. -/
theorem C4_setup_failure_short_circuits_witness :
    (truffleposix_posix_spawnp thirdCallFailsOS "ls" ["ls"] [] 4 exampleRedirects 5).1 = -12 :=
  (C4_setup_failure_short_circuits thirdCallFailsOS "ls" ["ls"] [] 4 exampleRedirects 5
    ⟨.posix_spawn_file_actions_adddup2 (some Obj.file_actions) 8 2, 12⟩
    (by rw [eval_third_call_fails]; decide) rfl (by decide)).2.1 (by decide)

/-- Claim C5: for `nredirects = 2 * k > 0`, when every setup primitive invoked by the run
returned 0, the calls of `truffleposix_posix_spawnp` are, in order:
`posix_spawn_file_actions_init`, then for `j = 0 .. k-1` the call
`posix_spawn_file_actions_adddup2(file_actions, redirects[2j+1], redirects[2j])`, then the
three attribute calls when `pgroup >= 0`, then `posix_spawnp`, then the destroy calls;
and every index read from `redirects` is less than `2 * k`. -/
theorem C5_registers_pairs_in_order (os : OS) (command : String) (argv envp : List String)
    (k : Nat) (redirects : Nat → Int) (pgroup : Int) (hk : 0 < k)
    (hok : ∀ e ∈ (truffleposix_posix_spawnp os command argv envp (2 * (k : Int)) redirects
        pgroup).2.trace, e.prim.isSetup = true → e.ret = 0) :
    (truffleposix_posix_spawnp os command argv envp (2 * (k : Int)) redirects
        pgroup).2.trace.map Event.prim
      = Prim.posix_spawn_file_actions_init (some Obj.file_actions) ::
          (List.range k).map (fun j =>
            Prim.posix_spawn_file_actions_adddup2 (some Obj.file_actions)
              (redirects (2 * j + 1)) (redirects (2 * j)))
        ++ (if pgroup ≥ 0 then
              [Prim.posix_spawnattr_init (some Obj.attrs),
               Prim.posix_spawnattr_setflags (some Obj.attrs) os.POSIX_SPAWN_SETPGROUP,
               Prim.posix_spawnattr_setpgroup (some Obj.attrs) pgroup] else [])
        ++ [Prim.posix_spawnp command (some Obj.file_actions) (some Obj.attrs) argv envp]
        ++ (if pgroup ≥ 0 then [Prim.posix_spawnattr_destroy (some Obj.attrs)] else [])
        ++ [Prim.posix_spawn_file_actions_destroy (some Obj.file_actions)] ∧
    ∀ x ∈ (truffleposix_posix_spawnp os command argv envp (2 * (k : Int)) redirects
        pgroup).2.loads, x < 2 * k := by
  rcases hc : init_and_call_posix_spawnp os command argv envp (2 * (k : Int)) redirects pgroup
      (some Obj.file_actions) (some Obj.attrs)
      { trace := [], loads := [], stderr := [], file_actions_ptr := none, attrs_ptr := none }
    with ⟨r, st⟩
  have htr := spawnp_trace os command argv envp (2 * (k : Int)) redirects pgroup r st hc
  have hld := spawnp_loads os command argv envp (2 * (k : Int)) redirects pgroup r st hc
  have hok1 : ∀ e ∈ st.trace, e.prim.isSetup = true → e.ret = 0 := by
    intro e he
    apply hok e
    rw [htr]
    exact List.mem_append_left _ (List.mem_append_left _ he)
  rw [htr, hld]
  unfold init_and_call_posix_spawnp at hc
  have hb1 := redirect_block_post os (2 * (k : Int)) redirects _ Progress_init
  rcases hc1 : redirect_block os (2 * (k : Int)) redirects (some Obj.file_actions)
      { trace := [], loads := [], stderr := [], file_actions_ptr := none, attrs_ptr := none }
    with ⟨_ | r1, st1⟩
  · rw [hc1] at hb1 hc
    simp only at hc
    obtain ⟨t1, l1, f1, a1⟩ := redirect_block_none os redirects _ k hk _ st1 hc1
    have hb2 := pgroup_block_post os pgroup st1 hb1
    rcases hc2 : pgroup_block os pgroup (some Obj.attrs) st1 with ⟨_ | r2, st2⟩
    · rw [hc2] at hc
      simp only [invoke] at hc
      obtain ⟨t2, l2, f2, a2⟩ := pgroup_block_none os pgroup _ st1 st2 hc2
      have hst : st = { st2 with trace := st2.trace ++
          [⟨.posix_spawnp command (some Obj.file_actions) (some Obj.attrs) argv envp,
            os.ret st2.trace
              (.posix_spawnp command (some Obj.file_actions) (some Obj.attrs) argv envp)⟩] } := by
        split at hc
        · exact (congrArg Prod.snd hc).symm
        · exact (congrArg Prod.snd hc).symm
      subst hst
      simp only [f2, f1, a2, a1, l2]
      constructor
      · by_cases hp : pgroup ≥ 0
        · simp [hp, t2, t1]
        · simp [hp, t2, t1]
      · intro x hx
        rcases l1 x hx with h | h
        · simp at h
        · exact h
    · rw [hc2] at hb2 hc
      simp only at hc
      obtain ⟨e, he, h1, h2⟩ := Failed_mem os r2 st2 hb2
      have : st = st2 := (congrArg Prod.snd hc).symm
      subst this
      exact absurd (hok1 e he h1) h2
  · rw [hc1] at hb1 hc
    simp only at hc
    obtain ⟨e, he, h1, h2⟩ := Failed_mem os r1 st1 hb1
    have : st = st1 := (congrArg Prod.snd hc).symm
    subst this
    exact absurd (hok1 e he h1) h2

/-- Witness for C5: on `allSucceedOS` with the array `{1, 7, 2, 8}` the two registrations are
`adddup2(7, 1)` and `adddup2(8, 2)`, in that order, before `posix_spawnp`. -/
theorem C5_registers_pairs_in_order_witness :
    (truffleposix_posix_spawnp allSucceedOS "ls" ["ls"] [] 4 exampleRedirects 5).2.trace.map
        Event.prim
      = [.posix_spawn_file_actions_init (some Obj.file_actions),
         .posix_spawn_file_actions_adddup2 (some Obj.file_actions) (exampleRedirects 1)
            (exampleRedirects 0),
         .posix_spawn_file_actions_adddup2 (some Obj.file_actions) (exampleRedirects 3)
            (exampleRedirects 2),
         .posix_spawnattr_init (some Obj.attrs),
         .posix_spawnattr_setflags (some Obj.attrs) 2,
         .posix_spawnattr_setpgroup (some Obj.attrs) 5,
         .posix_spawnp "ls" (some Obj.file_actions) (some Obj.attrs) ["ls"] [],
         .posix_spawnattr_destroy (some Obj.attrs),
         .posix_spawn_file_actions_destroy (some Obj.file_actions)] :=
  (C5_registers_pairs_in_order allSucceedOS "ls" ["ls"] [] 2 exampleRedirects 5 (by decide)
    (by rw [show (2 * ((2 : Nat) : Int)) = 4 from rfl, eval_all_succeed]; decide)).1

/-- Claim C6 as stated fails: with the Linux macros, a child reported as continued
(`options = WCONTINUED = 8`, status word `0xffff`) satisfies none of `WIFEXITED`,
`WIFSIGNALED`, `WIFSTOPPED`, so all three entries stay at `-1000` although `waitpid`
returned a positive pid. -/
theorem C6_counterexample_continued_status :
    ¬ ∀ (waitpid : WaitPid) (pid options : Int) (result : Nat → Int),
        0 < (waitpid pid 0 options).1 →
        (truffleposix_waitpid linuxWaitMacros waitpid pid options result).1
            = (waitpid pid 0 options).1 ∧
          setFields (truffleposix_waitpid linuxWaitMacros waitpid pid options result).2 = 1 := by
  intro h
  have := (h (fun _ _ _ => (1234, 65535)) 1234 8 (fun _ => 0) (by decide)).2
  revert this
  decide

/-- Claim C6, amended: when `waitpid` returns `r > 0` (and the value macros yield
non-negative numbers), `truffleposix_waitpid` returns `r` and at most one entry of the
result triple differs from `-1000`; exactly one differs if and only if the status
satisfies at least one of `WIFEXITED`, `WIFSIGNALED`, `WIFSTOPPED`, and none differs if
and only if it satisfies none of them. -/
theorem C6_at_most_one_field_set (m : WaitMacros) (hm : m.NonNegative) (waitpid : WaitPid)
    (pid options : Int) (result : Nat → Int) (hr : 0 < (waitpid pid 0 options).1) :
    (truffleposix_waitpid m waitpid pid options result).1 = (waitpid pid 0 options).1 ∧
    setFields (truffleposix_waitpid m waitpid pid options result).2 ≤ 1 ∧
    (setFields (truffleposix_waitpid m waitpid pid options result).2 = 1 ↔
      (m.WIFEXITED (waitpid pid 0 options).2 = true
        ∨ m.WIFSIGNALED (waitpid pid 0 options).2 = true
        ∨ m.WIFSTOPPED (waitpid pid 0 options).2 = true)) ∧
    (setFields (truffleposix_waitpid m waitpid pid options result).2 = 0 ↔
      (m.WIFEXITED (waitpid pid 0 options).2 = false
        ∧ m.WIFSIGNALED (waitpid pid 0 options).2 = false
        ∧ m.WIFSTOPPED (waitpid pid 0 options).2 = false)) := by
  obtain ⟨h1, h2, h3⟩ := hm (waitpid pid 0 options).2
  have e1 : m.WEXITSTATUS (waitpid pid 0 options).2 ≠ -1000 := by omega
  have e2 : m.WTERMSIG (waitpid pid 0 options).2 ≠ -1000 := by omega
  have e3 : m.WSTOPSIG (waitpid pid 0 options).2 ≠ -1000 := by omega
  have hr' : ¬ (waitpid pid 0 options).1 ≤ 0 := by omega
  unfold truffleposix_waitpid setFields triple
  simp only [hr', if_false]
  cases hE : m.WIFEXITED (waitpid pid 0 options).2 <;>
  cases hS : m.WIFSIGNALED (waitpid pid 0 options).2 <;>
  cases hT : m.WIFSTOPPED (waitpid pid 0 options).2 <;>
  simp [Function.update, e1, e2, e3]

/-- Witness for C6: a child that exited with code 3 (status word `0x0300`). -/
theorem C6_at_most_one_field_set_witness :
    setFields (truffleposix_waitpid linuxWaitMacros (fun _ _ _ => (77, 768)) 77 0 (fun _ => 0)).2
      = 1 :=
  (C6_at_most_one_field_set linuxWaitMacros linuxWaitMacros_nonNegative
    (fun _ _ _ => (77, 768)) 77 0 (fun _ => 0) (by decide)).2.2.1.mpr (Or.inl (by decide))

/-- Claim C7: when `waitpid` returns `r > 0`, the triple written is
`[WEXITSTATUS(status), -1000, -1000]` if `WIFEXITED(status)`, whatever the other
predicates say; otherwise `[-1000, WTERMSIG(status), -1000]` if `WIFSIGNALED(status)`;
otherwise `[-1000, -1000, WSTOPSIG(status)]` if `WIFSTOPPED(status)`; and the decoded
value, being non-negative, is not the sentinel `-1000`. -/
theorem C7_decode_precedence (m : WaitMacros) (hm : m.NonNegative) (waitpid : WaitPid)
    (pid options : Int) (result : Nat → Int) (hr : 0 < (waitpid pid 0 options).1) :
    (m.WIFEXITED (waitpid pid 0 options).2 = true →
      triple (truffleposix_waitpid m waitpid pid options result).2
        = [m.WEXITSTATUS (waitpid pid 0 options).2, -1000, -1000]
      ∧ m.WEXITSTATUS (waitpid pid 0 options).2 ≠ -1000) ∧
    (m.WIFEXITED (waitpid pid 0 options).2 = false →
      m.WIFSIGNALED (waitpid pid 0 options).2 = true →
      triple (truffleposix_waitpid m waitpid pid options result).2
        = [-1000, m.WTERMSIG (waitpid pid 0 options).2, -1000]
      ∧ m.WTERMSIG (waitpid pid 0 options).2 ≠ -1000) ∧
    (m.WIFEXITED (waitpid pid 0 options).2 = false →
      m.WIFSIGNALED (waitpid pid 0 options).2 = false →
      m.WIFSTOPPED (waitpid pid 0 options).2 = true →
      triple (truffleposix_waitpid m waitpid pid options result).2
        = [-1000, -1000, m.WSTOPSIG (waitpid pid 0 options).2]
      ∧ m.WSTOPSIG (waitpid pid 0 options).2 ≠ -1000) := by
  obtain ⟨h1, h2, h3⟩ := hm (waitpid pid 0 options).2
  have hr' : ¬ (waitpid pid 0 options).1 ≤ 0 := by omega
  unfold truffleposix_waitpid triple
  simp only [hr', if_false]
  refine ⟨?_, ?_, ?_⟩
  · intro hE
    simp [hE, Function.update]; omega
  · intro hE hS
    simp [hE, hS, Function.update]; omega
  · intro hE hS hT
    simp [hE, hS, hT, Function.update]; omega

/-- Witness for C7: a child killed by signal 9 under the Linux macros. -/
theorem C7_decode_precedence_witness :
    triple (truffleposix_waitpid linuxWaitMacros (fun _ _ _ => (77, 9)) 77 0 (fun _ => 0)).2
        = [-1000, 9, -1000] ∧ (9 : Int) ≠ -1000 :=
  (C7_decode_precedence linuxWaitMacros linuxWaitMacros_nonNegative
    (fun _ _ _ => (77, 9)) 77 0 (fun _ => 0) (by decide)).2.1 (by decide) (by decide)

/-- Claim C8: if `waitpid` returns `r <= 0`, `truffleposix_waitpid` returns exactly `r` and
the memory behind `result` is unchanged. -/
theorem C8_nonpositive_leaves_result (m : WaitMacros) (waitpid : WaitPid) (pid options : Int)
    (result : Nat → Int) (hr : (waitpid pid 0 options).1 ≤ 0) :
    truffleposix_waitpid m waitpid pid options result = ((waitpid pid 0 options).1, result) := by
  unfold truffleposix_waitpid
  simp [hr]

/-- Witness for C8: `waitpid` fails with -1 and the result array keeps its contents. -/
theorem C8_nonpositive_leaves_result_witness :
    truffleposix_waitpid linuxWaitMacros (fun _ _ _ => (-1, 0)) 77 0 (fun _ => 7)
      = (-1, fun _ => 7) :=
  C8_nonpositive_leaves_result linuxWaitMacros (fun _ _ _ => (-1, 0)) 77 0 (fun _ => 7) (by decide)

/-- Claim C9: `truffleposix_getpriority` calls `getpriority` with `errno` cleared, whatever
`errno` held before.  If the call returns -1 with `errno = e` non-zero the result is the
`int` value of `-100 - e`; for every error number `1 <= e <= INT_MAX - 99` (those for
which `-100 - e` is representable) that is `-100 - e`, at most -101, outside `-20..20`,
and `e` is recovered as `-100 - result`.  Otherwise the result is the OS return value
unchanged, also a priority of -1 with `errno` still 0.  Hence for OS return values in
`-20..20` the result lies in `-20..20` if and only if the OS call succeeded. -/
theorem C9_getpriority_encoding (getpriority : GetPriority) (which who errno : Int) :
    (truffleposix_getpriority getpriority which who errno).2 = (getpriority which who 0).2 ∧
    ((getpriority which who 0).1 = -1 ∧ (getpriority which who 0).2 ≠ 0 →
      (truffleposix_getpriority getpriority which who errno).1
        = wrapInt (-100 - (getpriority which who 0).2)) ∧
    ((getpriority which who 0).1 = -1 →
      1 ≤ (getpriority which who 0).2 → (getpriority which who 0).2 ≤ 2147483548 →
      (truffleposix_getpriority getpriority which who errno).1
          = -100 - (getpriority which who 0).2 ∧
        (truffleposix_getpriority getpriority which who errno).1 ≤ -101 ∧
        ¬ (-20 ≤ (truffleposix_getpriority getpriority which who errno).1 ∧
            (truffleposix_getpriority getpriority which who errno).1 ≤ 20) ∧
        (getpriority which who 0).2
          = -100 - (truffleposix_getpriority getpriority which who errno).1) ∧
    (¬ ((getpriority which who 0).1 = -1 ∧ (getpriority which who 0).2 ≠ 0) →
      (truffleposix_getpriority getpriority which who errno).1 = (getpriority which who 0).1) ∧
    (-20 ≤ (getpriority which who 0).1 ∧ (getpriority which who 0).1 ≤ 20 →
      0 ≤ (getpriority which who 0).2 ∧ (getpriority which who 0).2 ≤ 2147483548 →
      ((-20 ≤ (truffleposix_getpriority getpriority which who errno).1 ∧
          (truffleposix_getpriority getpriority which who errno).1 ≤ 20) ↔
        ¬ ((getpriority which who 0).1 = -1 ∧ (getpriority which who 0).2 ≠ 0))) := by
  have hv : truffleposix_getpriority getpriority which who errno
      = if (getpriority which who 0).1 = -1 ∧ (getpriority which who 0).2 ≠ 0 then
          (wrapInt (-100 - (getpriority which who 0).2), (getpriority which who 0).2)
        else ((getpriority which who 0).1, (getpriority which who 0).2) := by
    unfold truffleposix_getpriority
    rfl
  have hw : 0 ≤ (getpriority which who 0).2 → (getpriority which who 0).2 ≤ 2147483548 →
      wrapInt (-100 - (getpriority which who 0).2) = -100 - (getpriority which who 0).2 :=
    fun h1 h2 => wrapInt_of_range _ (by omega) (by omega)
  rw [hv]
  by_cases hf : (getpriority which who 0).1 = -1 ∧ (getpriority which who 0).2 ≠ 0
  · rw [if_pos hf]
    obtain ⟨hf1, hf2⟩ := hf
    refine ⟨rfl, fun _ => rfl, fun _ h1 h2 => ?_, fun h => absurd ⟨hf1, hf2⟩ h,
      fun _ h => ?_⟩
    · show wrapInt (-100 - (getpriority which who 0).2) = -100 - (getpriority which who 0).2 ∧
        wrapInt (-100 - (getpriority which who 0).2) ≤ -101 ∧
        ¬ (-20 ≤ wrapInt (-100 - (getpriority which who 0).2) ∧
            wrapInt (-100 - (getpriority which who 0).2) ≤ 20) ∧
        (getpriority which who 0).2 = -100 - wrapInt (-100 - (getpriority which who 0).2)
      rw [hw (by omega) h2]
      omega
    · show (-20 ≤ wrapInt (-100 - (getpriority which who 0).2) ∧
          wrapInt (-100 - (getpriority which who 0).2) ≤ 20)
        ↔ ¬ ((getpriority which who 0).1 = -1 ∧ (getpriority which who 0).2 ≠ 0)
      rw [hw h.1 h.2]
      constructor
      · intro h3; omega
      · intro h3; exact absurd ⟨hf1, hf2⟩ h3
  · rw [if_neg hf]
    refine ⟨rfl, fun h => absurd h hf, fun h1 h2 _ => ?_, fun _ => rfl,
      fun h _ => ⟨fun _ => hf, fun _ => h⟩⟩
    exact absurd ⟨h1, by omega⟩ hf

/-- Witness for C9: `getpriority` fails with `errno = 3` (`ESRCH`); the result is -103. -/
theorem C9_getpriority_encoding_witness :
    (truffleposix_getpriority (fun _ _ e => if e = 0 then (-1, 3) else (0, e)) 0 4242 11).1 = -103
      ∧ (truffleposix_getpriority (fun _ _ e => if e = 0 then (-1, 3) else (0, e)) 0 4242 11).1
          ≤ -101 :=
  ⟨((C9_getpriority_encoding (fun _ _ e => if e = 0 then (-1, 3) else (0, e)) 0 4242 11).2.2.1
      (by decide) (by decide) (by decide)).1,
   ((C9_getpriority_encoding (fun _ _ e => if e = 0 then (-1, 3) else (0, e)) 0 4242 11).2.2.1
      (by decide) (by decide) (by decide)).2.1⟩

/-- Claim C10: `truffleposix_clock_gettime` returns 0 when `clock_gettime` fails and
otherwise `tv_sec * 1000000000 + tv_nsec` as an `int64_t`; for two successful readings
with `0 <= tv_nsec < 1000000000` and `0 <= tv_sec <= 9223372035` the result is exactly
that sum, and the results are ordered like the readings ordered lexicographically. -/
theorem C10_clock_collapse_monotone (cg1 cg2 : ClockGettime) (c1 c2 s1 n1 s2 n2 : Int)
    (h1 : cg1 c1 = (0, s1, n1)) (h2 : cg2 c2 = (0, s2, n2))
    (hs1 : 0 ≤ s1 ∧ s1 ≤ 9223372035) (hn1 : 0 ≤ n1 ∧ n1 < 1000000000)
    (hs2 : 0 ≤ s2 ∧ s2 ≤ 9223372035) (hn2 : 0 ≤ n2 ∧ n2 < 1000000000)
    (hle : s1 < s2 ∨ (s1 = s2 ∧ n1 ≤ n2)) :
    (∀ (cg : ClockGettime) (c : Int), (cg c).1 ≠ 0 → truffleposix_clock_gettime cg c = 0) ∧
    (∀ (cg : ClockGettime) (c : Int), (cg c).1 = 0 →
      truffleposix_clock_gettime cg c = wrapInt64 ((cg c).2.1 * 1000000000 + (cg c).2.2)) ∧
    truffleposix_clock_gettime cg1 c1 = s1 * 1000000000 + n1 ∧
    truffleposix_clock_gettime cg2 c2 = s2 * 1000000000 + n2 ∧
    truffleposix_clock_gettime cg1 c1 ≤ truffleposix_clock_gettime cg2 c2 := by
  have hgen : ∀ (cg : ClockGettime) (c : Int), (cg c).1 = 0 →
      truffleposix_clock_gettime cg c = wrapInt64 ((cg c).2.1 * 1000000000 + (cg c).2.2) := by
    intro cg c h
    unfold truffleposix_clock_gettime
    simp only [h, ne_eq, not_true_eq_false, if_false]
    exact wrapInt64_collapse _ _
  have e1 : truffleposix_clock_gettime cg1 c1 = s1 * 1000000000 + n1 := by
    have h := hgen cg1 c1 (by rw [h1])
    rw [h1] at h
    simp only at h
    rw [h]
    exact wrapInt64_of_range _ (by omega) (by omega)
  have e2 : truffleposix_clock_gettime cg2 c2 = s2 * 1000000000 + n2 := by
    have h := hgen cg2 c2 (by rw [h2])
    rw [h2] at h
    simp only at h
    rw [h]
    exact wrapInt64_of_range _ (by omega) (by omega)
  refine ⟨?_, hgen, e1, e2, ?_⟩
  · intro cg c h
    unfold truffleposix_clock_gettime
    simp only [h, ne_eq, not_false_eq_true, if_true]
  · rw [e1, e2]; omega

/-- Witness for C10: the readings `(5 s, 999999999 ns)` and `(6 s, 0 ns)`. -/
theorem C10_clock_collapse_monotone_witness :
    truffleposix_clock_gettime (fun _ => (0, 5, 999999999)) 1
      ≤ truffleposix_clock_gettime (fun _ => (0, 6, 0)) 1 :=
  (C10_clock_collapse_monotone (fun _ => (0, 5, 999999999)) (fun _ => (0, 6, 0)) 1 1
    5 999999999 6 0 rfl rfl (by decide) (by decide) (by decide) (by decide) (by decide)).2.2.2.2

end TrufflePosix
